import Mathlib

/-!
Verification development for the `text_on_image` crate.

The code under verification is `src/lib.rs` (the canonical revision of the
module) together with the earlier near-duplicate revision `src/text_on_image.rs`
used by the binary target.  Font metrics are supplied by an external
collaborator (`rusttype`), so they are abstracted as an arbitrary deterministic
width function `w : String → Nat` (the result of `get_text_width`) and a line
height `H : Int` (the result of `get_text_height`).  Scale components are
`f32` in the source; they are modelled by `F32`, either NaN or a numeric value
represented as a rational, with the IEEE-754 comparisons (every comparison
involving NaN is false) that the source's checks observe.  Rendering calls are reified as a list of `DrawOp` values in the
order the source performs the canvas mutations; a `panic!` in the source is
modelled as a `some errorMessage` second component, with the first component
holding exactly the canvas mutations performed before the abort.
-/

/-- Rust `char::is_whitespace`: the Unicode `White_Space` code points.
Used by both `str::trim` and `str::split_whitespace`. -/
def isRustWhitespace (c : Char) : Bool :=
  c == ' ' || c == '\t' || c == '\n' || c == '\u000B' || c == '\u000C' ||
  c == '\r' || c.toNat == 0x85 || c.toNat == 0xA0 || c.toNat == 0x1680 ||
  (0x2000 ≤ c.toNat && c.toNat ≤ 0x200A) ||
  c.toNat == 0x2028 || c.toNat == 0x2029 || c.toNat == 0x202F ||
  c.toNat == 0x205F || c.toNat == 0x3000

/-- Rust `str::trim`: remove leading and trailing Unicode whitespace. -/
def rustTrim (s : String) : String :=
  String.mk (((s.data.dropWhile isRustWhitespace).reverse.dropWhile isRustWhitespace).reverse)

/-- Finish one line for `rustLines`: the accumulator holds the line reversed and
the line was terminated by `'\n'`, so a trailing `'\r'` (head of the reversed
accumulator) is stripped, as Rust `str::lines` does for `"\r\n"`. -/
def finishLine (acc : List Char) : String :=
  match acc with
  | '\r' :: rest => String.mk rest.reverse
  | _ => String.mk acc.reverse

/-- Worker for `rustLines`; the accumulator holds the current line reversed. -/
def rustLinesAux : List Char → List Char → List String
  | [], acc => if acc.isEmpty then [] else [String.mk acc.reverse]
  | c :: cs, acc =>
    if c = '\n' then finishLine acc :: rustLinesAux cs []
    else rustLinesAux cs (c :: acc)

/-- Rust `str::lines`: split at `'\n'` (consuming a preceding `'\r'`), with no
trailing empty line when the string ends in a line terminator. -/
def rustLines (s : String) : List String :=
  rustLinesAux s.data []

/-- Worker for `split_whitespace`; the accumulator holds the current word
reversed. -/
def splitWsAux : List Char → List Char → List String
  | [], acc => if acc.isEmpty then [] else [String.mk acc.reverse]
  | c :: cs, acc =>
    if isRustWhitespace c then
      if acc.isEmpty then splitWsAux cs []
      else String.mk acc.reverse :: splitWsAux cs []
    else splitWsAux cs (c :: acc)

/-- Rust `str::split_whitespace`: the whitespace-delimited words of a line,
with no empty words. -/
def split_whitespace (s : String) : List String :=
  splitWsAux s.data []

/-- `src/lib.rs` line 97: the logical lines of the input,
`text.lines().map(|line| line.trim())`. -/
def logicalLines (text : String) : List String :=
  (rustLines text).map rustTrim

/-- Defines how the text extends from the point you place it
(`src/lib.rs` lines 14-21; the `#[default]` variant is `Center`). -/
inductive TextJustify
  | Left
  | Center
  | Right
deriving DecidableEq

/-- The derived `Default` of `TextJustify` in `src/lib.rs`: `Center`. -/
def TextJustify.default : TextJustify := TextJustify.Center

/-- Defines where the text sits relative to the vertical coordinate provided
(`src/lib.rs` lines 23-30; the `#[default]` variant is `Center`). -/
inductive VerticalAnchor
  | Top
  | Center
  | Bottom
deriving DecidableEq

/-- The derived `Default` of `VerticalAnchor` in `src/lib.rs`: `Center`. -/
def VerticalAnchor.default : VerticalAnchor := VerticalAnchor.Center

/-- Choose whether text wraps beyond a specified pixel length
(`src/lib.rs` lines 32-38; the `#[default]` variant is `NoWrap`). -/
inductive WrapBehavior
  | NoWrap
  | Wrap (max_width : Nat)
deriving DecidableEq

/-- The derived `Default` of `WrapBehavior` in `src/lib.rs`: `NoWrap`. -/
def WrapBehavior.default : WrapBehavior := WrapBehavior.NoWrap

/-- A model of the `f32` scale components as far as the source's comparisons
observe them: either NaN or a numeric value, represented exactly as a
rational.  (Infinities compare like ordinary ordered values in every
comparison the source performs, so they are absorbed into the `val` case.) -/
inductive F32
  | nan
  | val (q : ℚ)
deriving DecidableEq

/-- IEEE-754 `<=` on modelled `f32` values: any comparison involving NaN is
false. -/
def F32.ble : F32 → F32 → Bool
  | F32.val p, F32.val q => decide (p ≤ q)
  | _, _ => false

/-- IEEE-754 `<` on modelled `f32` values: any comparison involving NaN is
false. -/
def F32.blt : F32 → F32 → Bool
  | F32.val p, F32.val q => decide (p < q)
  | _, _ => false

/-- Whether a modelled `f32` value is NaN. -/
def F32.isNan : F32 → Bool
  | F32.nan => true
  | F32.val _ => false

/-- `rusttype::Scale`: the two `f32` scale components. -/
structure Scale where
  x : F32
  y : F32
deriving DecidableEq

/-- `image::Rgba<u8>`: a draw color. -/
structure Rgba where
  r : Nat
  g : Nat
  b : Nat
  a : Nat
deriving DecidableEq

/-- A bundle of font related values (`src/lib.rs` lines 45-50).  The borrowed
font is an opaque handle, represented by a `Nat` identifier. -/
structure FontBundle where
  font : Nat
  scale : Scale
  color : Rgba
deriving DecidableEq

/-- The panic message of `FontBundle::new` and `FontBundle::set_scale` in
`src/lib.rs`. -/
def scaleErrorMsg : String :=
  "text_on_image: FontBundle scale.x or scale.y cannot be <= 0.0!"

/-- `FontBundle::new` (`src/lib.rs` lines 63-72): panics (modelled as
`Except.error`) when a scale component compares `<= 0.0`; a NaN component
compares false and passes the check. -/
def FontBundle.new (font_ : Nat) (scale_ : Scale) (color_ : Rgba) :
    Except String FontBundle :=
  if F32.ble scale_.x (F32.val 0) || F32.ble scale_.y (F32.val 0) then
    Except.error scaleErrorMsg
  else Except.ok { font := font_, scale := scale_, color := color_ }

/-- `FontBundle::set_scale` (`src/lib.rs` lines 74-79): panics (modelled as
`Except.error`) when a scale component compares `<= 0.0`; a NaN component
compares false and passes the check. -/
def FontBundle.set_scale (fb : FontBundle) (scale_ : Scale) :
    Except String FontBundle :=
  if F32.ble scale_.x (F32.val 0) || F32.ble scale_.y (F32.val 0) then
    Except.error scaleErrorMsg
  else Except.ok { fb with scale := scale_ }

/-- `FontBundle::set_color` (`src/lib.rs` lines 81-83). -/
def FontBundle.set_color (fb : FontBundle) (color_ : Rgba) : FontBundle :=
  { fb with color := color_ }

/-- A mutation of a `FontBundle` through its public setters. -/
inductive FontBundleOp
  | setScale (s : Scale)
  | setColor (c : Rgba)

/-- Apply a sequence of setter calls to a `FontBundle`; a panicking
`set_scale` aborts the sequence. -/
def applyOps (fb : FontBundle) : List FontBundleOp → Except String FontBundle
  | [] => Except.ok fb
  | FontBundleOp.setScale s :: ops =>
    match fb.set_scale s with
    | Except.error e => Except.error e
    | Except.ok fb2 => applyOps fb2 ops
  | FontBundleOp.setColor c :: ops => applyOps (fb.set_color c) ops

/-- The `scale_x > 0 ∧ scale_y > 0` invariant of `FontBundle`, with the
IEEE-754 comparison: a NaN component violates it. -/
def scaleInvariant (fb : FontBundle) : Prop :=
  F32.blt (F32.val 0) fb.scale.x = true ∧ F32.blt (F32.val 0) fb.scale.y = true

/-- A setter call whose scale components (if any) are not NaN. -/
def opScaleNumeric : FontBundleOp → Prop
  | FontBundleOp.setScale s => s.x.isNan = false ∧ s.y.isNan = false
  | FontBundleOp.setColor _ => True

/-- The character loop of the empty-buffer hyphenation branch
(`src/lib.rs` lines 145-155).  On overflow the current buffer is flushed with a
trailing hyphen and the current character starts the new buffer. -/
def hyphLoopKeep (w : String → Nat) (mw : Nat) :
    List Char → List String → String → List String × String
  | [], out, buffer => (out, buffer)
  | c :: cs, out, buffer =>
    if w (buffer ++ "-") ≤ mw then hyphLoopKeep w mw cs out (buffer.push c)
    else hyphLoopKeep w mw cs (out ++ [buffer ++ "-"]) (String.singleton c)

/-- The character loop of the nonempty-buffer hyphenation branch
(`src/lib.rs` lines 165-174).  On overflow the current buffer is flushed with a
trailing hyphen and the buffer is reset to empty; unlike `hyphLoopKeep`, the
current character is not carried into the new buffer. -/
def hyphLoopDrop (w : String → Nat) (mw : Nat) :
    List Char → List String → String → List String × String
  | [], out, buffer => (out, buffer)
  | c :: cs, out, buffer =>
    if w (buffer ++ "-") ≤ mw then hyphLoopDrop w mw cs out (buffer.push c)
    else hyphLoopDrop w mw cs (out ++ [buffer ++ "-"]) ""

/-- The body of the per-word loop of the wrap stage
(`src/lib.rs` lines 115-176), acting on the state
`(lines_altered, buffer)`. -/
def wrapWordStep (w : String → Nat) (mw : Nat)
    (st : List String × String) (word : String) : List String × String :=
  let out := st.1
  let buffer := st.2
  let optional_space_width : Nat := if buffer.isEmpty then w " " else 0
  if w (buffer ++ " " ++ word) ≤ mw + optional_space_width then
    (out, if buffer.isEmpty then word else buffer ++ " " ++ word)
  else if w (buffer ++ " " ++ word) > mw ∧ buffer.isEmpty then
    hyphLoopKeep w mw word.data out buffer
  else if w (buffer ++ " " ++ word) > mw ∧ ¬ buffer.isEmpty then
    hyphLoopDrop w mw word.data (out ++ [buffer]) ""
  else
    (out, buffer)

/-- The wrap stage for one logical line (`src/lib.rs` lines 114-177): process
the words in order starting from an empty buffer, then push the remaining
buffer unconditionally. -/
def wrapLine (w : String → Nat) (mw : Nat) (line : String) : List String :=
  let st := (split_whitespace line).foldl (wrapWordStep w mw) ([], "")
  st.1 ++ [st.2]

/-- The wrap stage over all logical lines (`src/lib.rs` lines 112-178):
`lines_altered` accumulates the physical lines of each logical line in
order. -/
def wrapLines (w : String → Nat) (mw : Nat) (lines : List String) : List String :=
  (lines.map (wrapLine w mw)).flatten

/-- One canvas mutation, in the order the source performs them. -/
inductive DrawOp
  | text (line : String) (x y : Int)
  | cross (x y : Int)
deriving DecidableEq

/-- The vertical offset of line `i` out of `N` (`src/lib.rs` lines 256-264);
`Int.tdiv` is the truncating division of Rust `i32`. -/
def verticalOffset (H : Int) (N i : Int) : VerticalAnchor → Int
  | VerticalAnchor.Top => H * i
  | VerticalAnchor.Center => Int.tdiv (H * i - H * (N - i)) 2
  | VerticalAnchor.Bottom => -(H * (N - i))

/-- The horizontal offset of a line (`src/lib.rs` lines 265-269), with `W` the
measured width of that line; `/` is the truncating division of Rust `u32`. -/
def horizontalOffset (w : String → Nat) (line : String) : TextJustify → Nat
  | TextJustify.Left => 0
  | TextJustify.Center => w line / 2
  | TextJustify.Right => w line

/-- The draw loop of `position_and_draw` (`src/lib.rs` lines 252-283), with
`i` the value of `current_line`. -/
def padAux (w : String → Nat) (H : Int) (N : Int) (ax ay : Int)
    (hj : TextJustify) (va : VerticalAnchor) : Int → List String → List DrawOp
  | _, [] => []
  | i, line :: rest =>
    DrawOp.text line (ax - (horizontalOffset w line hj : Int))
        (ay + verticalOffset H N i va)
      :: padAux w H N ax ay hj va (i + 1) rest

/-- `position_and_draw` (`src/lib.rs` lines 241-284): one `draw_text_mut` call
per line, in order, at the computed origin. -/
def position_and_draw (w : String → Nat) (H : Int) (lines : List String)
    (ax ay : Int) (hj : TextJustify) (va : VerticalAnchor) : List DrawOp :=
  padAux w H (lines.length : Int) ax ay hj va 0 lines

/-- The panic message of the wrap-width precondition check
(`src/lib.rs` line 110), with `m` the measured width of the probe string
`"mm"`. -/
def maxWidthErrorMsg (m : Nat) : String :=
  "text_on_image: Cannot set max_width for wrapping below 2 ems! Try setting max_width to at least "
    ++ toString m

/-- `text_on_image` (`src/lib.rs` lines 87-194).  The result is the list of
canvas mutations actually performed, paired with `some` panic message when the
wrap-width precondition check aborts the call (before any drawing). -/
def text_on_image (w : String → Nat) (H : Int) (text : String) (ax ay : Int)
    (hj : TextJustify) (va : VerticalAnchor) (wb : WrapBehavior) :
    List DrawOp × Option String :=
  let lines := logicalLines text
  match wb with
  | WrapBehavior.NoWrap => (position_and_draw w H lines ax ay hj va, none)
  | WrapBehavior.Wrap mw =>
    if mw < w "mm" then ([], some (maxWidthErrorMsg (w "mm")))
    else (position_and_draw w H (wrapLines w mw lines) ax ay hj va, none)

/-- `text_on_image_draw_debug` (`src/lib.rs` lines 213-239): draw the debug
cross at the anchor, then run `text_on_image`.  The cross is drawn before the
wrap-width precondition is checked. -/
def text_on_image_draw_debug (w : String → Nat) (H : Int) (text : String)
    (ax ay : Int) (hj : TextJustify) (va : VerticalAnchor) (wb : WrapBehavior) :
    List DrawOp × Option String :=
  let r := text_on_image w H text ax ay hj va wb
  (DrawOp.cross ax ay :: r.1, r.2)

/-- A monospace metrics function: every character has width 1. -/
def w0 : String → Nat := fun s => s.data.length

/-- A per-character additive metrics function in which `'X'` is ten units wide
and every other character one unit wide. -/
def wX : String → Nat := fun s => (s.data.map (fun c => if c = 'X' then 10 else 1)).sum

namespace TextOnImageRs

/-- `TextJustify` of the earlier revision (`src/text_on_image.rs` lines
14-23). -/
inductive TextJustify
  | Left
  | Center
  | Right
deriving DecidableEq

/-- The manual `Default` impl of the earlier revision
(`src/text_on_image.rs` lines 19-23): `Left`. -/
def TextJustify.default : TextJustify := TextJustify.Left

/-- `VerticalAnchor` of the earlier revision (`src/text_on_image.rs` lines
24-33). -/
inductive VerticalAnchor
  | Top
  | Center
  | Bottom
deriving DecidableEq

/-- The manual `Default` impl of the earlier revision
(`src/text_on_image.rs` lines 29-33): `Top`. -/
def VerticalAnchor.default : VerticalAnchor := VerticalAnchor.Top

/-- `WrapBehavior` of the earlier revision (`src/text_on_image.rs` lines
35-44). -/
inductive WrapBehavior
  | NoWrap
  | Wrap (max_width : Nat)
deriving DecidableEq

/-- The manual `Default` impl of the earlier revision
(`src/text_on_image.rs` lines 40-44): `NoWrap`. -/
def WrapBehavior.default : WrapBehavior := WrapBehavior.NoWrap

/-- `FontBundle` of the earlier revision (`src/text_on_image.rs` lines
52-55): no color field. -/
structure FontBundle where
  font : Nat
  scale : Scale
deriving DecidableEq

/-- `FontBundle::new` of the earlier revision (`src/text_on_image.rs` lines
68-73): no scale check, always succeeds. -/
def FontBundle.new (font_ : Nat) (scale_ : Scale) : FontBundle :=
  { font := font_, scale := scale_ }

/-- `FontBundle::set_scale` of the earlier revision
(`src/text_on_image.rs` lines 75-77): no scale check. -/
def FontBundle.set_scale (fb : FontBundle) (scale_ : Scale) : FontBundle :=
  { fb with scale := scale_ }

end TextOnImageRs

lemma padAux_length (w : String → Nat) (H N ax ay : Int) (hj : TextJustify)
    (va : VerticalAnchor) :
    ∀ (ls : List String) (i0 : Int),
      (padAux w H N ax ay hj va i0 ls).length = ls.length := by
  intro ls
  induction ls with
  | nil => intro i0; rfl
  | cons l rest ih => intro i0; simp [padAux, ih]

lemma padAux_getElem (w : String → Nat) (H N ax ay : Int) (hj : TextJustify)
    (va : VerticalAnchor) :
    ∀ (ls : List String) (i0 : Int) (k : Nat),
      (padAux w H N ax ay hj va i0 ls)[k]? =
        ls[k]?.map (fun line =>
          DrawOp.text line (ax - (horizontalOffset w line hj : Int))
            (ay + verticalOffset H N (i0 + k) va)) := by
  intro ls
  induction ls with
  | nil => intro i0 k; simp [padAux]
  | cons l rest ih =>
    intro i0 k
    cases k with
    | zero => simp [padAux]
    | succ k =>
      have hidx : i0 + ((k + 1 : Nat) : Int) = (i0 + 1) + (k : Int) := by
        push_cast
        ring
      simp only [padAux, List.getElem?_cons_succ, ih (i0 + 1) k, hidx]

lemma position_and_draw_getElem (w : String → Nat) (H : Int) (lines : List String)
    (ax ay : Int) (hj : TextJustify) (va : VerticalAnchor) (k : Nat) :
    (position_and_draw w H lines ax ay hj va)[k]? =
      lines[k]?.map (fun line =>
        DrawOp.text line (ax - (horizontalOffset w line hj : Int))
          (ay + verticalOffset H (lines.length : Int) (k : Int) va)) := by
  unfold position_and_draw
  rw [padAux_getElem]
  simp only [zero_add]

/-- Claim C9 counterexample: in the `src/text_on_image.rs` revision of the
module, the default `TextJustify` is `Left` (not `Center`) and the default
`VerticalAnchor` is `Top` (not `Center`), so the claimed defaults do not hold
in every revision. -/
theorem enum_defaults_old_revision_cx :
    TextOnImageRs.TextJustify.default = TextOnImageRs.TextJustify.Left ∧
    TextOnImageRs.TextJustify.Left ≠ TextOnImageRs.TextJustify.Center ∧
    TextOnImageRs.VerticalAnchor.default = TextOnImageRs.VerticalAnchor.Top ∧
    TextOnImageRs.VerticalAnchor.Top ≠ TextOnImageRs.VerticalAnchor.Center := by
  refine ⟨rfl, ?_, rfl, ?_⟩ <;> decide

/-- Claim C9 (amended): in the canonical `src/lib.rs` revision the default
`TextJustify` is `Center`, the default `VerticalAnchor` is `Center` and the
default `WrapBehavior` is `NoWrap`; the earlier `src/text_on_image.rs`
revision instead defaults to `Left`, `Top` and `NoWrap`. -/
theorem enum_defaults :
    TextJustify.default = TextJustify.Center ∧
    VerticalAnchor.default = VerticalAnchor.Center ∧
    WrapBehavior.default = WrapBehavior.NoWrap ∧
    TextOnImageRs.TextJustify.default = TextOnImageRs.TextJustify.Left ∧
    TextOnImageRs.VerticalAnchor.default = TextOnImageRs.VerticalAnchor.Top ∧
    TextOnImageRs.WrapBehavior.default = TextOnImageRs.WrapBehavior.NoWrap :=
  ⟨rfl, rfl, rfl, rfl, rfl, rfl⟩

/-- Claim C10: the wrap stage pushes the remaining buffer unconditionally after
the last word, so every logical line (including an empty or all-whitespace one)
contributes at least one physical line, and for the non-empty logical line
`"a bcd"` (monospace metrics, `max_width = 2`) the last physical line is the
empty string. -/
theorem wrap_line_always_flushes_buffer :
    (∀ (w : String → Nat) (mw : Nat) (line : String),
      1 ≤ (wrapLine w mw line).length) ∧
    wrapLine w0 2 "" = [""] ∧
    wrapLine w0 2 " \t " = [""] ∧
    wrapLine w0 2 "a bcd" = ["a", "bc-", ""] ∧
    "a bcd" ≠ "" := by
  refine ⟨?_, by decide, by decide, by decide, by decide⟩
  intro w mw line
  simp only [wrapLine, List.length_append, List.length_singleton]
  omega

/-- Claim C1: evaluation of the wrap engine at a failing input.  For the
additive metrics `wX` (every character one unit wide except `'X'`, ten units
wide) the precondition `wX "mm" ≤ 2` holds, yet wrapping `"mX"` with
`max_width = 2` produces the single physical line `"mX"` whose measured width
is `11 > 2`, which has no trailing hyphen and more than one character: the
hyphenation loop checks `width(buffer + "-") ≤ max_width` before appending the
next character, so the appended character can push the line past the bound. -/
theorem wrap_width_bound_violation :
    wX "mm" ≤ 2 ∧
    wrapLine wX 2 "mX" = ["mX"] ∧
    2 < wX "mX" ∧
    "mX".data.getLast? ≠ some '-' ∧
    1 < "mX".data.length := by
  refine ⟨by decide, by decide, by decide, by decide, by decide⟩

/-- Claim C2: evaluation of the wrap engine at a failing input.  For monospace
metrics `w0` the precondition `w0 "mm" ≤ 2` holds, the words of `"a bcdef"`
are `["a", "bcdef"]`, yet wrapping with `max_width = 2` yields
`["a", "bc-", "ef"]`: the character `'d'` is lost, because the nonempty-buffer
hyphenation branch flushes `buffer + "-"` and resets the buffer without
carrying the current character.  The non-hyphen characters of the output
therefore do not reproduce the original words. -/
theorem wrap_content_preservation_violation :
    w0 "mm" ≤ 2 ∧
    split_whitespace "a bcdef" = ["a", "bcdef"] ∧
    wrapLine w0 2 "a bcdef" = ["a", "bc-", "ef"] ∧
    (String.join (wrapLine w0 2 "a bcdef")).data.filter (fun c => c != '-') ≠
      ("a" ++ "bcdef").data := by
  refine ⟨by decide, by decide, by decide, by decide⟩

lemma hyphLoopDrop_fst_extends (w : String → Nat) (mw : Nat) :
    ∀ (cs : List Char) (out : List String) (b : String),
      ∃ rest, (hyphLoopDrop w mw cs out b).1 = out ++ rest := by
  intro cs
  induction cs with
  | nil => intro out b; exact ⟨[], by simp [hyphLoopDrop]⟩
  | cons c cs ih =>
    intro out b
    by_cases hc : w (b ++ "-") ≤ mw
    · obtain ⟨rest, hrest⟩ := ih out (b.push c)
      exact ⟨rest, by simpa [hyphLoopDrop, hc] using hrest⟩
    · obtain ⟨rest, hrest⟩ := ih (out ++ [b ++ "-"]) ""
      refine ⟨(b ++ "-") :: rest, ?_⟩
      simp only [hyphLoopDrop, if_neg hc]
      simpa using hrest

/-- Claim C3 counterexample: with monospace metrics `w0` and `max_width = 2`
(which satisfies the precondition `w0 "mm" ≤ 2`), the word `"ab"` is appended
to the empty buffer even though the width of `buffer + " " + word` is
`3 > max_width`: the code compares against
`max_width + optional_space_width`, not against `max_width`. -/
theorem wrap_append_guard_cx :
    wrapWordStep w0 2 ([], "") "ab" = ([], "ab") ∧
    w0 "mm" ≤ 2 ∧
    ¬ w0 ("" ++ " " ++ "ab") ≤ 2 := by
  refine ⟨by decide, by decide, by decide⟩

/-- Claim C3 (amended): a word is appended to the buffer (joined by a single
space unless the buffer is empty) when the width of `buffer + " " + word` is
at most `max_width` plus the width of a single space when the buffer is empty
(plus nothing otherwise); when that inflated bound is exceeded and the buffer
is nonempty, the buffer is instead flushed to the output, so the word is not
appended to it. -/
theorem wrap_append_guard_amended :
    ∀ (w : String → Nat) (mw : Nat) (out : List String) (buffer word : String),
      (w (buffer ++ " " ++ word) ≤ mw + (if buffer.isEmpty then w " " else 0) →
        wrapWordStep w mw (out, buffer) word =
          (out, if buffer.isEmpty then word else buffer ++ " " ++ word)) ∧
      (¬ w (buffer ++ " " ++ word) ≤ mw + (if buffer.isEmpty then w " " else 0) →
        buffer.isEmpty = false →
        ∃ rest, (wrapWordStep w mw (out, buffer) word).1 = out ++ buffer :: rest) := by
  intro w mw out buffer word
  constructor
  · intro h
    simp only [wrapWordStep]
    rw [if_pos h]
  · intro h hne
    rw [hne] at h
    simp only [add_zero, if_neg Bool.false_ne_true] at h
    have hgt : w (buffer ++ " " ++ word) > mw := Nat.lt_of_not_le h
    simp only [wrapWordStep, hne, if_neg Bool.false_ne_true, add_zero,
      if_neg h, Bool.false_eq_true, and_false, if_false, not_false_iff,
      and_true, if_pos hgt]
    obtain ⟨rest, hrest⟩ := hyphLoopDrop_fst_extends w mw word.data (out ++ [buffer]) ""
    exact ⟨rest, by simpa using hrest⟩

/-- Claim C3 witness: concrete instances of both parts of the amended
theorem. -/
theorem wrap_append_guard_amended_witness :
    wrapWordStep w0 2 ([], "") "a" = ([], "a") ∧
    (∃ rest, (wrapWordStep w0 2 (["x"], "aa") "bbb").1 = ["x"] ++ "aa" :: rest) := by
  constructor
  · have h := (wrap_append_guard_amended w0 2 [] "" "a").1 (by decide)
    simpa using h
  · exact (wrap_append_guard_amended w0 2 ["x"] "aa" "bbb").2 (by decide) (by decide)

/-- Claim C4: layout draws line `i` (zero-based) of `N` lines exactly once, in
order, at origin `(anchor_x - horizontal_offset, anchor_y + vertical_offset)`,
where the vertical offset is `H * i` for `Top`,
`(H * i - H * (N - i)).tdiv 2` (truncating integer division) for `Center` and
`-(H * (N - i))` for `Bottom`, and the horizontal offset is `0` for `Left`,
`W / 2` for `Center` and `W` for `Right` with `W` the measured width of the
line. -/
theorem layout_per_line_origin :
    ∀ (w : String → Nat) (H : Int) (lines : List String) (ax ay : Int)
      (hj : TextJustify) (va : VerticalAnchor),
      (position_and_draw w H lines ax ay hj va).length = lines.length ∧
      (∀ k : Nat, (position_and_draw w H lines ax ay hj va)[k]? =
        lines[k]?.map (fun line =>
          DrawOp.text line (ax - (horizontalOffset w line hj : Int))
            (ay + verticalOffset H (lines.length : Int) (k : Int) va))) ∧
      (∀ H2 N i : Int,
        verticalOffset H2 N i VerticalAnchor.Top = H2 * i ∧
        verticalOffset H2 N i VerticalAnchor.Center =
          Int.tdiv (H2 * i - H2 * (N - i)) 2 ∧
        verticalOffset H2 N i VerticalAnchor.Bottom = -(H2 * (N - i))) ∧
      (∀ line : String,
        horizontalOffset w line TextJustify.Left = 0 ∧
        horizontalOffset w line TextJustify.Center = w line / 2 ∧
        horizontalOffset w line TextJustify.Right = w line) := by
  intro w H lines ax ay hj va
  refine ⟨padAux_length w H (lines.length : Int) ax ay hj va lines 0,
    fun k => position_and_draw_getElem w H lines ax ay hj va k,
    fun H2 N i => ⟨rfl, rfl, rfl⟩,
    fun line => ⟨rfl, rfl, rfl⟩⟩

/-- Claim C5 counterexample: with monospace metrics `w0` (probe width
`w0 "mm" = 2`) and `max_width = 1`, the debug variant reports the fatal
configuration error but has already drawn the anchor cross: the canvas is
mutated before the failure, contradicting the claimed "no canvas mutation"
for the debug entry point. -/
theorem wrap_precondition_debug_mutation_cx :
    text_on_image_draw_debug w0 10 "hi" 400 800 TextJustify.Center
        VerticalAnchor.Center (WrapBehavior.Wrap 1) =
      ([DrawOp.cross 400 800], some (maxWidthErrorMsg (w0 "mm"))) ∧
    1 < w0 "mm" ∧
    ([DrawOp.cross 400 800] : List DrawOp) ≠ [] := by
  refine ⟨by decide, by decide, by decide⟩

/-- Claim C5 (amended): when wrapping is requested with `max_width` below the
measured width of the probe string `"mm"`, both entry points fail with the
fatal configuration error whose message states the minimum acceptable value,
and no text is rendered; the standard entry point performs no canvas mutation
at all, while the debug variant has already drawn its anchor cross (its sole
mutation) before the check. -/
theorem wrap_precondition_failfast :
    ∀ (w : String → Nat) (H : Int) (text : String) (ax ay : Int)
      (hj : TextJustify) (va : VerticalAnchor) (mw : Nat),
      mw < w "mm" →
      text_on_image w H text ax ay hj va (WrapBehavior.Wrap mw) =
          ([], some (maxWidthErrorMsg (w "mm"))) ∧
      text_on_image_draw_debug w H text ax ay hj va (WrapBehavior.Wrap mw) =
          ([DrawOp.cross ax ay], some (maxWidthErrorMsg (w "mm"))) ∧
      maxWidthErrorMsg (w "mm") =
        "text_on_image: Cannot set max_width for wrapping below 2 ems! Try setting max_width to at least "
          ++ toString (w "mm") := by
  intro w H text ax ay hj va mw h
  refine ⟨?_, ?_, rfl⟩
  · simp only [text_on_image]
    rw [if_pos h]
  · simp only [text_on_image_draw_debug, text_on_image]
    rw [if_pos h]

/-- Claim C5 witness: the amended theorem at monospace metrics and
`max_width = 1 < 2 = w0 "mm"`. -/
theorem wrap_precondition_failfast_witness :
    text_on_image w0 10 "hi" 400 800 TextJustify.Center VerticalAnchor.Center
        (WrapBehavior.Wrap 1) = ([], some (maxWidthErrorMsg (w0 "mm"))) ∧
    text_on_image_draw_debug w0 10 "hi" 400 800 TextJustify.Center
        VerticalAnchor.Center (WrapBehavior.Wrap 1) =
      ([DrawOp.cross 400 800], some (maxWidthErrorMsg (w0 "mm"))) ∧
    maxWidthErrorMsg (w0 "mm") =
      "text_on_image: Cannot set max_width for wrapping below 2 ems! Try setting max_width to at least "
        ++ toString (w0 "mm") :=
  wrap_precondition_failfast w0 10 "hi" 400 800 TextJustify.Center
    VerticalAnchor.Center 1 (by decide)

/-- Claim C6 counterexample: a single physical line (`N = 1`) drawn with
`VerticalAnchor::Bottom` and line height `H = 20` is placed at vertical offset
`-20 = -H`, not `0` as the claim states for `N = 1`. -/
theorem bottom_anchor_single_line_cx :
    position_and_draw w0 20 ["hi"] 0 0 TextJustify.Left VerticalAnchor.Bottom =
      [DrawOp.text "hi" 0 (-20)] ∧
    (-20 : Int) ≠ 0 := by
  refine ⟨by decide, by decide⟩

/-- Claim C6 (amended): for `VerticalAnchor::Bottom` the last line's vertical
offset is always exactly `-H`, including the case `N = 1`, where the single
line's offset is `-H` (not `0`). -/
theorem bottom_anchor_last_line :
    ∀ (w : String → Nat) (H : Int) (lines : List String) (ax ay : Int)
      (hj : TextJustify),
      lines ≠ [] →
      (position_and_draw w H lines ax ay hj VerticalAnchor.Bottom)[lines.length - 1]? =
        lines[lines.length - 1]?.map (fun line =>
          DrawOp.text line (ax - (horizontalOffset w line hj : Int)) (ay + -H)) ∧
      verticalOffset H (lines.length : Int) ((lines.length : Int) - 1)
          VerticalAnchor.Bottom = -H := by
  intro w H lines ax ay hj hne
  have hlen : 1 ≤ lines.length := List.length_pos.mpr hne
  constructor
  · rw [position_and_draw_getElem]
    have hvo : verticalOffset H (lines.length : Int) ((lines.length - 1 : Nat) : Int)
        VerticalAnchor.Bottom = -H := by
      have hidx : ((lines.length - 1 : Nat) : Int) = (lines.length : Int) - 1 := by
        omega
      rw [hidx]
      simp only [verticalOffset]
      ring
    simp only [hvo]
  · simp only [verticalOffset]
    ring

/-- Claim C6 witness: the amended theorem at two concrete lines with
`H = 20`. -/
theorem bottom_anchor_last_line_witness :
    (position_and_draw w0 20 ["a", "b"] 5 7 TextJustify.Left
        VerticalAnchor.Bottom)[(["a", "b"] : List String).length - 1]? =
      (["a", "b"] : List String)[(["a", "b"] : List String).length - 1]?.map
        (fun line => DrawOp.text line
          ((5 : Int) - (horizontalOffset w0 line TextJustify.Left : Int))
          ((7 : Int) + -(20 : Int))) ∧
    verticalOffset 20 ((["a", "b"] : List String).length : Int)
        (((["a", "b"] : List String).length : Int) - 1) VerticalAnchor.Bottom =
      -(20 : Int) :=
  bottom_anchor_last_line w0 20 ["a", "b"] 5 7 TextJustify.Left (by decide)

lemma F32_blt_zero_of_ble_false (a : F32) (hn : a.isNan = false)
    (h : F32.ble a (F32.val 0) = false) : F32.blt (F32.val 0) a = true := by
  cases a with
  | nan => simp [F32.isNan] at hn
  | val q =>
    simp only [F32.ble, decide_eq_false_iff_not, not_le] at h
    simp [F32.blt, h]

lemma applyOps_invariant :
    ∀ (ops : List FontBundleOp) (fb fb2 : FontBundle),
      (∀ op ∈ ops, opScaleNumeric op) →
      scaleInvariant fb → applyOps fb ops = Except.ok fb2 → scaleInvariant fb2 := by
  intro ops
  induction ops with
  | nil =>
    intro fb fb2 _ h he
    simp only [applyOps] at he
    cases he
    exact h
  | cons op rest ih =>
    intro fb fb2 hops h he
    have hop : opScaleNumeric op := hops op (List.mem_cons_self op rest)
    have hrest : ∀ o ∈ rest, opScaleNumeric o :=
      fun o ho => hops o (List.mem_cons_of_mem op ho)
    cases op with
    | setScale s =>
      cases hss : fb.set_scale s with
      | error e =>
        simp [applyOps, hss] at he
      | ok fb3 =>
        have h3 : scaleInvariant fb3 := by
          unfold FontBundle.set_scale at hss
          by_cases hc : (F32.ble s.x (F32.val 0) || F32.ble s.y (F32.val 0)) = true
          · rw [if_pos hc] at hss
            simp at hss
          · rw [if_neg hc] at hss
            cases hss
            simp only [Bool.or_eq_true, not_or, Bool.not_eq_true] at hc
            exact ⟨F32_blt_zero_of_ble_false s.x hop.1 hc.1,
              F32_blt_zero_of_ble_false s.y hop.2 hc.2⟩
        simp only [applyOps, hss] at he
        exact ih fb3 fb2 hrest h3 he
    | setColor c =>
      simp only [applyOps] at he
      exact ih (fb.set_color c) fb2 hrest h he

/-- Claim C7 counterexample: two concrete violations of the claimed fail-fast
invariant.  The `src/text_on_image.rs` revision's `FontBundle::new` performs
no scale check, so it constructs (without any failure) a bundle whose
`scale.x = -40` violates `scale_x > 0`; and even the canonical `src/lib.rs`
revision's check `scale_.x <= 0. || scale_.y <= 0.` is passed by a NaN
component (an IEEE-754 comparison involving NaN is false), so `new` succeeds
while the resulting bundle's `scale_x > 0` is also false. -/
theorem fontbundle_invariant_cx :
    TextOnImageRs.FontBundle.new 0 (Scale.mk (F32.val (-40)) (F32.val 40)) =
      TextOnImageRs.FontBundle.mk 0 (Scale.mk (F32.val (-40)) (F32.val 40)) ∧
    F32.blt (F32.val 0)
      (TextOnImageRs.FontBundle.new 0
        (Scale.mk (F32.val (-40)) (F32.val 40))).scale.x = false ∧
    FontBundle.new 0 (Scale.mk F32.nan (F32.val 40)) (Rgba.mk 0 0 0 0) =
      Except.ok (FontBundle.mk 0 (Scale.mk F32.nan (F32.val 40))
        (Rgba.mk 0 0 0 0)) ∧
    F32.blt (F32.val 0)
      (FontBundle.mk 0 (Scale.mk F32.nan (F32.val 40))
        (Rgba.mk 0 0 0 0)).scale.x = false := by
  refine ⟨rfl, by decide, ?_, by decide⟩
  simp [FontBundle.new, F32.ble]

/-- Claim C7 (amended): in the canonical `src/lib.rs` revision,
`FontBundle::new` and `FontBundle::set_scale` fail fast exactly when a scale
component compares `≤ 0` in IEEE-754 semantics, and every `FontBundle`
obtained from a successful `new` followed by any successful sequence of
setter calls, all with non-NaN scale components, satisfies
`0 < scale.x ∧ 0 < scale.y`.  The checks do not exclude NaN (which compares
neither `≤ 0` nor `> 0`), and the earlier `src/text_on_image.rs` revision
performs no check at all, so the invariant does not hold unconditionally. -/
theorem fontbundle_scale_invariant :
    (∀ (f : Nat) (s : Scale) (c : Rgba),
      (F32.ble s.x (F32.val 0) || F32.ble s.y (F32.val 0)) = true →
      FontBundle.new f s c = Except.error scaleErrorMsg) ∧
    (∀ (fb : FontBundle) (s : Scale),
      (F32.ble s.x (F32.val 0) || F32.ble s.y (F32.val 0)) = true →
      FontBundle.set_scale fb s = Except.error scaleErrorMsg) ∧
    (∀ (f : Nat) (s : Scale) (c : Rgba) (fb0 fb : FontBundle)
        (ops : List FontBundleOp),
      s.x.isNan = false → s.y.isNan = false →
      (∀ op ∈ ops, opScaleNumeric op) →
      FontBundle.new f s c = Except.ok fb0 → applyOps fb0 ops = Except.ok fb →
        F32.blt (F32.val 0) fb.scale.x = true ∧
          F32.blt (F32.val 0) fb.scale.y = true) := by
  refine ⟨fun f s c h => by simp only [FontBundle.new, if_pos h],
    fun fb s h => by simp only [FontBundle.set_scale, if_pos h], ?_⟩
  intro f s c fb0 fb ops hx hy hops hnew happ
  have h0 : scaleInvariant fb0 := by
    unfold FontBundle.new at hnew
    by_cases hc : (F32.ble s.x (F32.val 0) || F32.ble s.y (F32.val 0)) = true
    · rw [if_pos hc] at hnew
      simp at hnew
    · rw [if_neg hc] at hnew
      cases hnew
      simp only [Bool.or_eq_true, not_or, Bool.not_eq_true] at hc
      exact ⟨F32_blt_zero_of_ble_false s.x hx hc.1,
        F32_blt_zero_of_ble_false s.y hy hc.2⟩
  exact applyOps_invariant ops fb0 fb hops h0 happ

/-- Claim C7 witness: a failing construction and a successful
construct-then-mutate sequence (all scale components numeric) whose result
satisfies the invariant. -/
theorem fontbundle_scale_invariant_witness :
    FontBundle.new 0 (Scale.mk (F32.val (-1)) (F32.val 1)) (Rgba.mk 0 0 0 0) =
      Except.error scaleErrorMsg ∧
    (F32.blt (F32.val 0)
        (FontBundle.mk 0 (Scale.mk (F32.val 3) (F32.val 4))
          (Rgba.mk 0 0 0 0)).scale.x = true ∧
      F32.blt (F32.val 0)
        (FontBundle.mk 0 (Scale.mk (F32.val 3) (F32.val 4))
          (Rgba.mk 0 0 0 0)).scale.y = true) :=
  ⟨fontbundle_scale_invariant.1 0 (Scale.mk (F32.val (-1)) (F32.val 1))
      (Rgba.mk 0 0 0 0) (by decide),
    fontbundle_scale_invariant.2.2 0 (Scale.mk (F32.val 1) (F32.val 2))
      (Rgba.mk 0 0 0 0)
      (FontBundle.mk 0 (Scale.mk (F32.val 1) (F32.val 2)) (Rgba.mk 0 0 0 0))
      (FontBundle.mk 0 (Scale.mk (F32.val 3) (F32.val 4)) (Rgba.mk 0 0 0 0))
      [FontBundleOp.setScale (Scale.mk (F32.val 3) (F32.val 4))]
      rfl rfl
      (by
        intro op hop
        rw [List.mem_singleton] at hop
        subst hop
        exact ⟨rfl, rfl⟩)
      rfl
      rfl⟩

/-- Claim C8: with `WrapBehavior::NoWrap` the wrap stage is the identity: the
physical lines are exactly the logical lines (the input split on line breaks
with each line trimmed), and those same lines are passed to the layout stage
unchanged, each drawn at its computed origin. -/
theorem nowrap_identity :
    ∀ (w : String → Nat) (H : Int) (text : String) (ax ay : Int)
      (hj : TextJustify) (va : VerticalAnchor),
      text_on_image w H text ax ay hj va WrapBehavior.NoWrap =
          (position_and_draw w H (logicalLines text) ax ay hj va, none) ∧
      logicalLines text = (rustLines text).map rustTrim ∧
      (∀ k : Nat,
        (text_on_image w H text ax ay hj va WrapBehavior.NoWrap).1[k]? =
          (logicalLines text)[k]?.map (fun line =>
            DrawOp.text line (ax - (horizontalOffset w line hj : Int))
              (ay + verticalOffset H ((logicalLines text).length : Int)
                (k : Int) va))) := by
  intro w H text ax ay hj va
  exact ⟨rfl, rfl, fun k => position_and_draw_getElem w H (logicalLines text) ax ay hj va k⟩
